import Mathlib

/-!
Verification development for the FINTRACKER quant-service subsystem
(Portfolio Analytics and Resilient Market-Data Layer).

The definitions below are a shallow embedding of the Python sources:

* `src/backend/quant-service/app/analytics.py`   (class `AnalyticsEngine`)
* `src/backend/quant-service/app/market_data.py` (class `FinnhubMarketDataService`)
* `src/backend/quant-service/app/endpoints.py`   (`_calculate_portfolio_historical_data`)
* `src/backend/quant-service/app/models.py`      (table `MarketData`)

Python floats are modelled by `ℚ`; the only float operation that has no
exact rational counterpart (`np.sqrt`) is abstracted as a `FloatSqrt`
parameter — every verified statement is independent of it.  Fallible code
is modelled with `Option`/`Except`.  Python `dict`s are modelled as
association lists (insertion order preserved, keys unique by construction).
-/

/-! ## Generic association-list helpers (Python `dict` semantics) -/

/-- Lookup in an association list (first match, like a Python dict whose keys
are unique by construction). -/
def alistLookup {α β : Type} [DecidableEq α] : List (α × β) → α → Option β
  | [], _ => none
  | (k, v) :: rest, key => if k = key then some v else alistLookup rest key

/-- `d[key] = value` on a Python dict: replace the value if the key is
present, otherwise append the new key at the end (insertion order). -/
def alistSet {α β : Type} [DecidableEq α] : List (α × β) → α → β → List (α × β)
  | [], key, v => [(key, v)]
  | (k, w) :: rest, key, v =>
      if k = key then (key, v) :: rest else (k, w) :: alistSet rest key v

/-- `del d[key]` on a Python dict. -/
def alistErase {α β : Type} [DecidableEq α] (l : List (α × β)) (key : α) :
    List (α × β) :=
  l.filter (fun e => decide (e.1 ≠ key))

/-! ## Python `round(x, n)` (round-half-to-even) over `ℚ` -/

/-- Python `round(x, digits)`: round half to even at the given number of
decimal digits.  (CPython rounds the binary double half-to-even; the model
applies the same tie rule to the exact rational value.) -/
def pyRound (digits : ℕ) (q : ℚ) : ℚ :=
  let p : ℚ := (10 : ℚ) ^ digits
  let m : ℚ := q * p
  let fl : ℤ := ⌊m⌋
  let frac : ℚ := m - fl
  let r : ℤ :=
    if frac < 1 / 2 then fl
    else if 1 / 2 < frac then fl + 1
    else if fl % 2 = 0 then fl else fl + 1
  (r : ℚ) / p

/-! ## Data model: transactions and positions (`models.py`, `analytics.py`) -/

/-- The `type` column of a `Transaction` row.  The replay code compares it
against the strings `"BUY"` and `"SELL"`; any other kind (e.g. dividends)
falls through both branches. -/
inductive TxType where
  | BUY
  | SELL
  | OTHER
deriving DecidableEq, Repr

/-- A `Transaction` row (the fields the analytics code reads).  `ts` is the
`transaction_date` timestamp in seconds; `txDay` below is Python
`transaction_date.date()`. -/
structure Tx where
  symbol : String
  txType : TxType
  shares : ℚ
  price : ℚ
  ts : ℕ
deriving DecidableEq, Repr

/-- `tx.transaction_date.date()`: collapse the timestamp to day granularity. -/
def txDay (tx : Tx) : ℕ := tx.ts / 86400

/-- One entry of `holdings_tracker` in `_calculate_portfolio_returns`:
`{"shares": .., "total_cost": .., "avg_cost": ..}` (`avg_cost` is written on
BUY and never read by the value computation). -/
structure Pos where
  shares : ℚ
  totalCost : ℚ
  avgCost : ℚ
deriving DecidableEq, Repr

/-- Environment seen by `AnalyticsEngine._get_current_prices`:
`live s` is the result of `FinnhubMarketDataService.get_latest_price(s)`
(that method catches every exception internally and returns `None`, so a
failure and a missing quote both appear as `none`); `dbClose s` is the most
recent cached `MarketData.close` for `s`; `dbRaises` models the database
query itself raising (the only exception that can escape to the caller). -/
structure PriceEnv where
  live : String → Option ℚ
  dbClose : String → Option ℚ
  dbRaises : Bool

/-- One loop iteration of `_get_current_prices`: the dict entry contributed
by a symbol — its live quote if present, else its latest cached DB close if
present, else nothing (`prices[symbol]` is simply not assigned). -/
def priceEntry (env : PriceEnv) (s : String) : Option (String × ℚ) :=
  match env.live s with
  | some p => some (s, p)
  | none =>
    match env.dbClose s with
    | some c => some (s, c)
    | none => none

/-- `AnalyticsEngine._get_current_prices(db, symbols)`: for each symbol, use
the live quote if present, else the latest cached DB close if present, else
omit the symbol from the returned dict.  A database error propagates to the
caller (`Except.error`). -/
def getCurrentPrices (env : PriceEnv) (symbols : List String) :
    Except Unit (List (String × ℚ)) :=
  if env.dbRaises then .error ()
  else .ok (symbols.filterMap (priceEntry env))

/-- Lines 61–86 of `analytics.py`: update `holdings_tracker` for one
transaction.  BUY accumulates shares and cost (inserting a zero position
first if absent) and stores the average cost; SELL on a tracked symbol
removes shares, proportionally reduces `total_cost` while shares remain
positive, and deletes the position otherwise; anything else is a no-op. -/
def updateTracker (tr : List (String × Pos)) (tx : Tx) : List (String × Pos) :=
  match tx.txType with
  | .BUY =>
    let cur := (alistLookup tr tx.symbol).getD ⟨0, 0, 0⟩
    let newShares := cur.shares + tx.shares
    let newCost := cur.totalCost + tx.shares * tx.price
    alistSet tr tx.symbol
      ⟨newShares, newCost, if newShares > 0 then newCost / newShares else 0⟩
  | .SELL =>
    match alistLookup tr tx.symbol with
    | none => tr
    | some cur =>
      let sharesLeft := cur.shares - tx.shares
      if sharesLeft > 0 then
        let costPerShare := cur.totalCost / (sharesLeft + tx.shares)
        alistSet tr tx.symbol
          ⟨sharesLeft, cur.totalCost - tx.shares * costPerShare, cur.avgCost⟩
      else
        alistErase tr tx.symbol
  | .OTHER => tr

/-- Lines 88–103 of `analytics.py`: the mark-to-market value recorded for
one replay step.  With no open symbols the value stays `0`.  If the batched
price lookup raises, the value falls back to the sum of the tracked
positions' `total_cost`; otherwise each tracked symbol that appears in the
returned price dict and has positive shares contributes `shares × price`. -/
def portfolioValue (env : PriceEnv) (tr : List (String × Pos)) : ℚ :=
  match tr with
  | [] => 0
  | _ =>
    match getCurrentPrices env (tr.map (fun e => e.1)) with
    | .error _ => (tr.map (fun e => e.2.totalCost)).sum
    | .ok prices =>
      (tr.filterMap (fun e =>
        match alistLookup prices e.1 with
        | some pr => if e.2.shares > (0 : ℚ) then some (e.2.shares * pr) else none
        | none => none)).sum

/-- One iteration of the replay loop: update the tracker, then record the
portfolio value under the transaction's calendar day
(`daily_portfolio_values[date_key] = portfolio_value`, last write wins). -/
def replayStep (env : PriceEnv) (st : List (String × Pos) × List (ℕ × ℚ))
    (tx : Tx) : List (String × Pos) × List (ℕ × ℚ) :=
  let tr := updateTracker st.1 tx
  (tr, alistSet st.2 (txDay tx) (portfolioValue env tr))

/-- The `daily_portfolio_values` dict after replaying the whole ledger. -/
def dayValues (txs : List Tx) (env : PriceEnv) : List (ℕ × ℚ) :=
  (txs.foldl (replayStep env) ([], [])).2

/-- `sorted_dates = sorted(daily_portfolio_values.keys())` paired with their
values: the observation series, one entry per distinct transaction day. -/
def dailyObservations (txs : List Tx) (env : PriceEnv) : List (ℕ × ℚ) :=
  let dv := dayValues txs env
  let sortedDays := List.insertionSort (· ≤ ·) (dv.map (fun e => e.1))
  sortedDays.map (fun d => (d, (alistLookup dv d).getD 0))

/-- Lines 109–115 of `analytics.py`: walk consecutive observation values and
emit `(curr - prev) / prev` whenever `prev > 0`. -/
def returnsLoop : List ℚ → List ℚ
  | p :: c :: rest => (if p > 0 then [(c - p) / p] else []) ++ returnsLoop (c :: rest)
  | _ => []

/-- `AnalyticsEngine._calculate_portfolio_returns`: empty for fewer than two
transactions, otherwise the period returns over the day-keyed observation
series. -/
def portfolioReturns (txs : List Tx) (env : PriceEnv) : List ℚ :=
  if txs.length < 2 then []
  else returnsLoop ((dailyObservations txs env).map (fun e => e.2))

/-! ## Metrics Calculator (`analytics.py`, lines 246–444 and 488–568) -/

/-- `self.risk_free_rate = 0.05`. -/
def riskFreeRate : ℚ := 5 / 100

/-- `np.mean`. -/
def listMean (l : List ℚ) : ℚ := l.sum / l.length

/-- `np.std(·, ddof=1) ** 2` / `np.var(·, ddof=1)`: sample variance. -/
def sampleVariance (l : List ℚ) : ℚ :=
  ((l.map (fun x => (x - listMean l) ^ 2)).sum) / ((l.length : ℚ) - 1)

/-- `np.cov(xs, ys)[0, 1]` (default `bias=False`, i.e. ddof = 1). -/
def sampleCov (xs ys : List ℚ) : ℚ :=
  (((xs.zip ys).map (fun p => (p.1 - listMean xs) * (p.2 - listMean ys))).sum) /
    ((xs.length : ℚ) - 1)

/-- `np.sqrt` on floats has no exact rational counterpart, so the model takes
it as a parameter; every verified claim is independent of the choice. -/
structure FloatSqrt where
  sqrt : ℚ → ℚ

/-- `np.cumprod(1 + returns)`. -/
def cumulProd (l : List ℚ) : List ℚ :=
  (l.scanl (fun acc x => acc * x) 1).tail

/-- `np.maximum.accumulate`. -/
def runningMax : List ℚ → List ℚ
  | [] => []
  | x :: xs => xs.scanl (fun acc y => max acc y) x

/-- `AnalyticsEngine._calculate_sharpe_ratio`. -/
def calcSharpe (ops : FloatSqrt) (rs : List ℚ) : ℚ :=
  if rs.length = 0 then 0
  else
    let annualReturn := listMean rs * 252
    let annualVol := ops.sqrt (sampleVariance rs) * ops.sqrt 252
    if annualVol = 0 then 0
    else pyRound 3 ((annualReturn - riskFreeRate) / annualVol)

/-- `AnalyticsEngine._calculate_volatility`. -/
def calcVolatility (ops : FloatSqrt) (rs : List ℚ) : ℚ :=
  if rs.length = 0 then 0
  else pyRound 2 (ops.sqrt (sampleVariance rs) * ops.sqrt 252 * 100)

/-- `AnalyticsEngine._calculate_max_drawdown` (rational throughout). -/
def calcMaxDrawdown (rs : List ℚ) : ℚ :=
  if rs.length = 0 then 0
  else
    let cum := cumulProd (rs.map (fun r => 1 + r))
    let dd := List.zipWith (fun c m => (c - m) / m) cum (runningMax cum)
    let worst := match dd with
      | [] => 0
      | h :: t => t.foldl min h
    pyRound 2 (|worst| * 100)

/-- `AnalyticsEngine._calculate_sortino_ratio`. -/
def calcSortino (ops : FloatSqrt) (rs : List ℚ) : ℚ :=
  if rs.length = 0 then 0
  else
    let annualReturn := listMean rs * 252
    let dailyRf := riskFreeRate / 252
    let downside := rs.filter (fun r => decide (r < dailyRf))
    if downside.length = 0 then 100
    else
      let dv := listMean (downside.map (fun x => (x - dailyRf) ^ 2))
      let dd := ops.sqrt dv * ops.sqrt 252
      if dd = 0 then 0
      else pyRound 3 ((annualReturn - riskFreeRate) / dd)

/-- `AnalyticsEngine._get_market_returns`.  The body's first statement is
`market_ticker = yf.Ticker(self.market_symbol)`, but `analytics.py` never
binds the name `yf` (its imports are numpy, pandas, typing, sqlalchemy,
`.models`, `.schemas`, `.market_data`, datetime and asyncio), so every call
raises `NameError`, which the function's own `except` handler turns into
`np.array([])`.  The function therefore denotes the constant empty series. -/
def getMarketReturns (numDays : ℕ) : List ℚ := []

/-- `AnalyticsEngine._calculate_beta_with_market`. -/
def calcBetaWithMarket (p m : List ℚ) : ℚ :=
  if p.length ≠ m.length ∨ p.length = 0 then 1
  else
    let cov := sampleCov p m
    let marketVariance := sampleVariance m
    if marketVariance = 0 then 1
    else pyRound 3 (cov / marketVariance)

/-- `AnalyticsEngine._calculate_beta`. -/
def calcBeta (rs : List ℚ) : ℚ :=
  if rs.length = 0 then 1
  else calcBetaWithMarket rs (getMarketReturns rs.length)

/-- `AnalyticsEngine._calculate_alpha`.  After the length guard the code
computes `beta = self._calculate_beta_with_market(...)` without `await`, so
`beta` is a coroutine object and the subsequent multiplication raises
`TypeError`; the surrounding `except` handler returns `0.0`.  Both remaining
branches therefore yield `0`. -/
def calcAlpha (rs : List ℚ) : ℚ :=
  if rs.length = 0 then 0
  else
    let marketReturns := getMarketReturns rs.length
    if marketReturns.length ≠ rs.length then 0
    else 0

/-- The `PerformanceMetrics` schema (fields `sharpe_ratio`, `alpha`, `beta`,
`volatility`, `max_drawdown`, `sortino_ratio`). -/
structure PerformanceMetrics where
  sharpe : ℚ
  alpha : ℚ
  beta : ℚ
  volatility : ℚ
  maxDrawdown : ℚ
  sortino : ℚ
deriving DecidableEq, Repr

/-- `AnalyticsEngine._default_metrics`. -/
def defaultMetrics : PerformanceMetrics :=
  ⟨0, 0, 1, 0, 0, 0⟩

/-- `AnalyticsEngine.calculate_performance_metrics`.  The portfolio query is
modelled as `Option (List Tx)`: `none` when the user has no portfolio,
otherwise the portfolio's transaction ledger (date-ascending, as produced by
the `order_by(transaction_date)` query). -/
def calculatePerformanceMetrics (ops : FloatSqrt) (env : PriceEnv)
    (portfolio : Option (List Tx)) : PerformanceMetrics :=
  match portfolio with
  | none => defaultMetrics
  | some txs =>
    let rs := portfolioReturns txs env
    if rs.length < 30 then defaultMetrics
    else
      ⟨calcSharpe ops rs, calcAlpha rs, calcBeta rs,
       calcVolatility ops rs, calcMaxDrawdown rs, calcSortino ops rs⟩

/-! ## Correlation matrix (`analytics.py`, lines 404–444 and 488–513) -/

/-- `AnalyticsEngine._calculate_symbol_correlation`.  Its first statement is
`ticker1 = yf.Ticker(symbol1)`; `analytics.py` never binds `yf` (see
`getMarketReturns`), so every call raises `NameError` and the function's
`except` handler returns `0.0`: the function denotes the constant `0`. -/
def symbolCorrelation (symbol1 symbol2 : String) : ℚ := 0

/-- The `CorrelationMatrix` schema. -/
structure CorrelationMatrix where
  symbols : List String
  matrix : List (List ℚ)
deriving DecidableEq, Repr

/-- `AnalyticsEngine.calculate_correlation_matrix`: `None` without a
portfolio or with fewer than two holdings; otherwise an n×n matrix with
`1.0` on the diagonal and `_calculate_symbol_correlation` off it.  The
holdings query is modelled by the list of held symbols
(`symbols = [h.symbol for h in holdings]`). -/
def calculateCorrelationMatrix (portfolio : Option Unit)
    (holdings : List String) : Option CorrelationMatrix :=
  match portfolio with
  | none => none
  | some _ =>
    if holdings.length < 2 then none
    else
      some ⟨holdings,
        (List.range holdings.length).map (fun i =>
          (List.range holdings.length).map (fun j =>
            if i = j then 1
            else symbolCorrelation (holdings.getD i "") (holdings.getD j "")))⟩

/-! ## Market Data Client (`market_data.py`, `FinnhubMarketDataService`) -/

/-- What the provider does on one attempt of `_request`:
`success` — the GET returns a status < 400 and the body parses;
`http429` — explicit rate-limit status;
`httpError` — any other status ≥ 400 (`raise FinnhubError(...)` inside the try);
`badJson` — status < 400 but `resp.json()` raises;
`netError` — `httpx.RequestError` (timeout / transport failure). -/
inductive AttemptOutcome where
  | success
  | http429
  | httpError
  | badJson
  | netError
deriving DecidableEq, Repr

/-- How the `for attempt in range(1, max_retries + 1)` loop of `_request`
terminates, with the number of network attempts made:
`returned` — `return resp.json()`;
`raisedNet` — the final-attempt `raise FinnhubError(...)` inside the
`except httpx.RequestError` arm (leaves the loop without reaching line 90);
`brokeOut` — `break` (or normal loop exit), reaching line 90, which sets
`_service_available = False` and raises. -/
inductive RequestEnd where
  | returned (attempts : ℕ)
  | raisedNet (attempts : ℕ)
  | brokeOut (attempts : ℕ)
deriving DecidableEq, Repr

/-- The retry loop body of `_request`, iterating over the remaining attempt
numbers.  A 429 at an attempt `≥ max_retries` raises `RateLimitExceeded`,
which the catch-all `except Exception` arm turns into a `break`; an HTTP
error status or a malformed body likewise lands in the catch-all arm and is
retried while `attempt < max_retries`; a transport error is retried the same
way but, on the final attempt, re-raises directly (bypassing line 90). -/
def runAttempts (provider : ℕ → AttemptOutcome) (maxRetries : ℕ) :
    List ℕ → RequestEnd
  | [] => .brokeOut maxRetries
  | a :: rest =>
    match provider a with
    | .success => .returned a
    | .http429 =>
      if maxRetries ≤ a then .brokeOut a else runAttempts provider maxRetries rest
    | .httpError =>
      if a < maxRetries then runAttempts provider maxRetries rest else .brokeOut a
    | .badJson =>
      if a < maxRetries then runAttempts provider maxRetries rest else .brokeOut a
    | .netError =>
      if a < maxRetries then runAttempts provider maxRetries rest else .raisedNet a

/-- `for attempt in range(1, self.max_retries + 1): ...` -/
def requestAttempts (provider : ℕ → AttemptOutcome) (maxRetries : ℕ) : RequestEnd :=
  runAttempts provider maxRetries (List.range' 1 maxRetries)

/-- The mutable client state that `_request` reads and writes:
`max_retries` and `_service_available`. -/
structure FinnhubService where
  maxRetries : ℕ
  serviceAvailable : Bool
deriving DecidableEq, Repr

/-- Observable outcome of one `_request` call. -/
inductive RequestResult where
  | circuitOpen
  | ok (attempts : ℕ)
  | raisedNetworkError (attempts : ℕ)
  | failedAfterRetries (attempts : ℕ)
deriving DecidableEq, Repr

/-- Network attempts consumed by a call. -/
def attemptsOf : RequestResult → ℕ
  | .circuitOpen => 0
  | .ok n => n
  | .raisedNetworkError n => n
  | .failedAfterRetries n => n

/-- `FinnhubMarketDataService._request`: raise immediately when the
availability flag is down (zero attempts); otherwise run the retry loop.
Only the `break`/normal-exit path reaches line 90 and clears
`_service_available`; the final-attempt transport-error path raises without
touching the flag. -/
def request (svc : FinnhubService) (provider : ℕ → AttemptOutcome) :
    RequestResult × FinnhubService :=
  if svc.serviceAvailable = false then (.circuitOpen, svc)
  else
    match requestAttempts provider svc.maxRetries with
    | .returned n => (.ok n, svc)
    | .raisedNet n => (.raisedNetworkError n, svc)
    | .brokeOut n => (.failedAfterRetries n, { svc with serviceAvailable := false })

/-- `FinnhubMarketDataService.disable_service`. -/
def disableService (svc : FinnhubService) : FinnhubService :=
  { svc with serviceAvailable := false }

/-- `FinnhubMarketDataService.enable_service`. -/
def enableService (svc : FinnhubService) : FinnhubService :=
  { svc with serviceAvailable := true }

/-- A transient failure in the sense of the specification (timeout /
rate-limit response). -/
def IsTransient (o : AttemptOutcome) : Prop :=
  o = .http429 ∨ o = .netError

instance (o : AttemptOutcome) : Decidable (IsTransient o) := by
  unfold IsTransient; infer_instance

/-! ## OHLCV cache (`models.py` table `MarketData`, `_store_market_data`) -/

/-- One OHLCV bar as stored by `_store_market_data` (the values-dict of a
fetch). -/
structure OHLCVBar where
  openPrice : ℚ
  high : ℚ
  low : ℚ
  close : ℚ
  volume : ℚ
  adjustedClose : ℚ
deriving DecidableEq, Repr

/-- A row of the `market_data` table.  Its only primary key is the
auto-increment `id` column; `models.py` declares no unique constraint on
`(symbol, date)` (the nested `class Config: indexes = ...` is not SQLAlchemy
metadata and creates nothing). -/
structure MarketDataRow where
  id : ℕ
  symbol : String
  date : ℕ
  bar : OHLCVBar
deriving DecidableEq, Repr

/-- The `market_data` table plus the auto-increment counter. -/
structure MarketDataTable where
  rows : List MarketDataRow
  nextId : ℕ
deriving DecidableEq, Repr

/-- `db.merge(MarketData(symbol=.., date=.., ...))` as called by
`_store_market_data` (and by the `/market-data` endpoint): the transient
object's primary key `id` is unset, so `Session.merge` finds no existing
identity to merge into and INSERTs a fresh row with a new `id`.  Nothing
matches on `(symbol, date)`. -/
def dbMerge (t : MarketDataTable) (symbol : String) (date : ℕ)
    (bar : OHLCVBar) : MarketDataTable :=
  ⟨t.rows ++ [⟨t.nextId, symbol, date, bar⟩], t.nextId + 1⟩

/-- `AnalyticsEngine._store_market_data`: merge every (date, bar) pair of the
fetched dict, then commit (the commit-failure path only rolls back; the
success path is modelled). -/
def storeMarketData (t : MarketDataTable) (symbol : String)
    (data : List (ℕ × OHLCVBar)) : MarketDataTable :=
  data.foldl (fun acc e => dbMerge acc symbol e.1 e.2) t

/-! ## Benchmark Comparator (`endpoints.py`, `_calculate_portfolio_historical_data`) -/

/-- One entry of `holdings_tracker` in the endpoint replay
(`{"shares": .., "total_cost": ..}`). -/
structure BPos where
  shares : ℚ
  totalCost : ℚ
deriving DecidableEq, Repr

/-- Lines 146–154 of `endpoints.py`: BUY accumulates shares and cost; SELL
subtracts shares and deletes the position when shares drop to `≤ 0` (the
cost is not reduced here); other types are untouched. -/
def benchUpdate (tr : List (String × BPos)) (tx : Tx) : List (String × BPos) :=
  match tx.txType with
  | .BUY =>
    let cur := (alistLookup tr tx.symbol).getD ⟨0, 0⟩
    alistSet tr tx.symbol
      ⟨cur.shares + tx.shares, cur.totalCost + tx.shares * tx.price⟩
  | .SELL =>
    match alistLookup tr tx.symbol with
    | none => tr
    | some cur =>
      let sharesLeft := cur.shares - tx.shares
      if sharesLeft ≤ 0 then alistErase tr tx.symbol
      else alistSet tr tx.symbol ⟨sharesLeft, cur.totalCost⟩
  | .OTHER => tr

/-- Lines 156–173 of `endpoints.py`: the portfolio value for one observation.
When the batched price lookup succeeds, every position with positive shares
contributes `shares × price`, a symbol missing from the dict falling back to
the price of the transaction currently being processed
(`current_prices.get(symbol, tx.price)`); when the lookup raises, every
position with positive shares is valued at that transaction's price. -/
def benchPortfolioValue (env : PriceEnv) (tr : List (String × BPos))
    (txPrice : ℚ) : ℚ :=
  match tr with
  | [] => 0
  | _ =>
    match getCurrentPrices env (tr.map (fun e => e.1)) with
    | .ok prices =>
      (tr.filterMap (fun e =>
        if e.2.shares > (0 : ℚ) then
          some (e.2.shares * ((alistLookup prices e.1).getD txPrice))
        else none)).sum
    | .error _ =>
      (tr.filterMap (fun e =>
        if e.2.shares > (0 : ℚ) then some (e.2.shares * txPrice) else none)).sum

/-- One element of the returned series (`BenchmarkData`). -/
structure BenchmarkData where
  day : ℕ
  portfolioValue : ℚ
  benchmarkValue : ℚ
deriving DecidableEq, Repr

/-- The main loop of `_calculate_portfolio_historical_data`, carrying the
holdings tracker, the `initial_portfolio_value` variable (`none` while still
unassigned — referencing it then raises `NameError`, which the handler turns
into the `benchmark_normalized = portfolio_value` default) and the `i == 0`
flag.  For each transaction: update holdings, compute the portfolio value,
scan `benchmark_data` (date-ascending) for the first bar at or after the
transaction's day; if one is found and `initial_portfolio_value` is
assigned (at `i == 0` it is assigned first), normalize by
`close / benchmark_start_price × initial_portfolio_value`; otherwise keep
the default.  Both emitted values are rounded to 2 digits. -/
def benchGo (env : PriceEnv) (bdata : List (ℕ × ℚ)) (startClose : ℚ) :
    List Tx → List (String × BPos) → Option ℚ → Bool → List BenchmarkData
  | [], _, _, _ => []
  | tx :: rest, tr, initial, first =>
    let tr2 := benchUpdate tr tx
    let pv := benchPortfolioValue env tr2 tx.price
    let found := bdata.find? (fun b => decide (txDay tx ≤ b.1))
    let step : ℚ × Option ℚ :=
      match found with
      | none => (pv, initial)
      | some b =>
        let init2 := if first then some pv else initial
        match init2 with
        | some iv => ((b.2 / startClose) * iv, init2)
        | none => (pv, initial)
    ⟨txDay tx, pyRound 2 pv, pyRound 2 step.1⟩ ::
      benchGo env bdata startClose rest tr2 step.2 false

/-- `_calculate_portfolio_historical_data`: empty without a portfolio, with
no transactions in the window, or with no benchmark data; otherwise the
replay above with `benchmark_start_price = benchmark_data[0]["close"]`
(`1.0` when absent, per the guarded expression). -/
def portfolioHistoricalData (env : PriceEnv) (portfolio : Option Unit)
    (txs : List Tx) (bdata : List (ℕ × ℚ)) : List BenchmarkData :=
  match portfolio with
  | none => []
  | some _ =>
    if txs.isEmpty then []
    else if bdata.isEmpty then []
    else benchGo env bdata ((bdata.headD (0, 1)).2) txs [] none true

/-! ## Concrete scenarios used by counterexamples and witnesses -/

/-- A price environment whose live quote is `10` for every symbol. -/
def envLiveTen : PriceEnv := ⟨fun _ => some 10, fun _ => none, false⟩

/-- A price environment with no live quote and no cached close for any
symbol. -/
def envNoPrices : PriceEnv := ⟨fun _ => none, fun _ => none, false⟩

/-- A price environment whose database fallback query raises. -/
def envDbError : PriceEnv := ⟨fun _ => none, fun _ => none, true⟩

/-- A BUY transaction. -/
def buyTx (sym : String) (sh pr : ℚ) (ts : ℕ) : Tx := ⟨sym, .BUY, sh, pr, ts⟩

/-- An OHLCV bar closing at 10. -/
def barCloseTen : OHLCVBar := ⟨1, 2, 3, 10, 5, 10⟩

/-- An OHLCV bar closing at 11. -/
def barCloseEleven : OHLCVBar := ⟨1, 2, 3, 11, 5, 11⟩

/-! ## C1 -/

/-- C1: whenever the user has no portfolio, or the computed return series of
the portfolio's ledger has fewer than 30 observations (which covers the
fewer-than-two-transactions case, whose series is empty),
`calculate_performance_metrics` returns exactly the default metrics object
Sharpe=0, Sortino=0, Beta=1.0, Alpha=0, Volatility=0, MaxDrawdown=0,
without attempting partial computation. -/
theorem claim1_default_metrics_below_30 (ops : FloatSqrt) (env : PriceEnv)
    (portfolio : Option (List Tx))
    (h : ∀ txs, portfolio = some txs → (portfolioReturns txs env).length < 30) :
    calculatePerformanceMetrics ops env portfolio = defaultMetrics ∧
    defaultMetrics = ⟨0, 0, 1, 0, 0, 0⟩ := by
  refine ⟨?_, rfl⟩
  cases portfolio with
  | none => rfl
  | some txs =>
    have hlt := h txs rfl
    simp [calculatePerformanceMetrics, hlt]

/-- Witness for C1 at a concrete input: a portfolio whose ledger is empty
(fewer than two transactions). -/
theorem claim1_default_metrics_below_30_witness :
    (∀ txs, (some ([] : List Tx)) = some txs →
      (portfolioReturns txs envNoPrices).length < 30) ∧
    calculatePerformanceMetrics ⟨fun _ => 0⟩ envNoPrices (some []) =
      defaultMetrics := by
  have h : ∀ txs, (some ([] : List Tx)) = some txs →
      (portfolioReturns txs envNoPrices).length < 30 := by
    intro txs he
    cases he
    decide
  exact ⟨h, (claim1_default_metrics_below_30 ⟨fun _ => 0⟩ envNoPrices (some []) h).1⟩

/-! ## C9 -/

/-- C9: for every input return series, `_calculate_alpha` returns `0.0` and
`_calculate_beta` returns `1.0` — `_get_market_returns` always produces the
empty series (the module never binds `yf`, so its body raises `NameError`
into the `except` branch), hence alpha hits the length-mismatch default and
beta the mismatched-lengths default of `_calculate_beta_with_market` (and
the un-awaited coroutine in `_calculate_alpha` would land in the `except`
branch with `0.0` anyway); consequently `calculate_performance_metrics`
always reports alpha = 0.0 and beta = 1.0. -/
theorem claim9_alpha_zero_beta_one :
    (∀ rs : List ℚ, calcAlpha rs = 0) ∧
    (∀ rs : List ℚ, calcBeta rs = 1) ∧
    (∀ (ops : FloatSqrt) (env : PriceEnv) (portfolio : Option (List Tx)),
      (calculatePerformanceMetrics ops env portfolio).alpha = 0 ∧
      (calculatePerformanceMetrics ops env portfolio).beta = 1) := by
  have ha : ∀ rs : List ℚ, calcAlpha rs = 0 := by
    intro rs
    by_cases h : rs.length = 0 <;> simp [calcAlpha, h]
  have hb : ∀ rs : List ℚ, calcBeta rs = 1 := by
    intro rs
    by_cases h : rs.length = 0
    · simp [calcBeta, h]
    · simp [calcBeta, h, calcBetaWithMarket, getMarketReturns]
  refine ⟨ha, hb, ?_⟩
  intro ops env portfolio
  cases portfolio with
  | none => exact ⟨rfl, rfl⟩
  | some txs =>
    by_cases h : (portfolioReturns txs env).length < 30
    · simp [calculatePerformanceMetrics, h, defaultMetrics]
    · simp only [calculatePerformanceMetrics, h, if_false]
      exact ⟨ha _, hb _⟩

/-! ## C5 -/

/-- C5: the code evaluated at the claimed idempotence scenario.  Upserting a
bar for `("AAPL", day 19723)` and then a second bar for the same key leaves
TWO rows for that key (holding the first and the second write's fields
respectively), not one: `db.merge` is called on a transient object whose
primary key `id` is unset, so it always INSERTs, and the table has no
`(symbol, date)` unique constraint. -/
theorem claim5_upsert_not_idempotent :
    ((storeMarketData (storeMarketData ⟨[], 0⟩ "AAPL" [(19723, barCloseTen)])
        "AAPL" [(19723, barCloseEleven)]).rows.filter
      (fun r => decide (r.symbol = "AAPL" ∧ r.date = 19723))).length = 2 ∧
    ((storeMarketData (storeMarketData ⟨[], 0⟩ "AAPL" [(19723, barCloseTen)])
        "AAPL" [(19723, barCloseEleven)]).rows.map (fun r => r.bar)) =
      [barCloseTen, barCloseEleven] := by
  decide

/-! ## C8 and C10: the correlation matrix -/

/-- Any matrix produced by `calculate_correlation_matrix` is the n×n
identity over the held symbols: the diagonal is the literal `1.0` and every
off-diagonal cell is `_calculate_symbol_correlation`'s constant `0.0`. -/
theorem correlationMatrix_spec (pf : Option Unit) (holdings : List String)
    (M : CorrelationMatrix)
    (hM : calculateCorrelationMatrix pf holdings = some M) :
    M.symbols = holdings ∧
    M.matrix = (List.range holdings.length).map (fun i =>
      (List.range holdings.length).map (fun j =>
        if i = j then (1 : ℚ) else 0)) := by
  cases pf with
  | none => simp [calculateCorrelationMatrix] at hM
  | some u =>
    by_cases h2 : holdings.length < 2
    · simp [calculateCorrelationMatrix, h2] at hM
    · simp only [calculateCorrelationMatrix, h2, if_false, Option.some.injEq] at hM
      rw [← hM]
      exact ⟨rfl, rfl⟩

/-- Cell access into the matrix of `correlationMatrix_spec`. -/
theorem correlationMatrix_cell (pf : Option Unit) (holdings : List String)
    (M : CorrelationMatrix) (i j : ℕ)
    (hM : calculateCorrelationMatrix pf holdings = some M)
    (hi : i < holdings.length) (hj : j < holdings.length) :
    (M.matrix.getD i []).getD j 0 = if i = j then (1 : ℚ) else 0 := by
  obtain ⟨-, hmat⟩ := correlationMatrix_spec pf holdings M hM
  simp [hmat, List.getD_eq_getElem?_getD, List.getElem?_map, List.getElem?_range,
    hi, hj]

/-- C8: the correlation matrix is absent for portfolios with fewer than two
holdings (and without a portfolio); when present, every diagonal cell is
exactly `1.0`, and every off-diagonal cell — in particular any pair with
fewer than 20 overlapping price observations — is exactly `0.0`. -/
theorem claim8_correlation_matrix :
    (∀ (pf : Option Unit) (holdings : List String), holdings.length < 2 →
      calculateCorrelationMatrix pf holdings = none) ∧
    (∀ (pf : Option Unit) (holdings : List String) (M : CorrelationMatrix)
      (i : ℕ), calculateCorrelationMatrix pf holdings = some M →
      i < holdings.length → (M.matrix.getD i []).getD i 0 = 1) ∧
    (∀ (pf : Option Unit) (holdings : List String) (M : CorrelationMatrix)
      (i j : ℕ), calculateCorrelationMatrix pf holdings = some M →
      i < holdings.length → j < holdings.length → i ≠ j →
      (M.matrix.getD i []).getD j 0 = 0) := by
  refine ⟨?_, ?_, ?_⟩
  · intro pf holdings h2
    cases pf with
    | none => rfl
    | some u => simp [calculateCorrelationMatrix, h2]
  · intro pf holdings M i hM hi
    rw [correlationMatrix_cell pf holdings M i i hM hi hi]
    simp
  · intro pf holdings M i j hM hi hj hij
    rw [correlationMatrix_cell pf holdings M i j hM hi hj]
    simp [hij]

/-- Witness for C8 at concrete inputs: a single holding yields no matrix; a
two-holding portfolio has `1.0` at cell (0,0) and `0.0` at cell (0,1). -/
theorem claim8_correlation_matrix_witness :
    calculateCorrelationMatrix (some ()) ["A"] = none ∧
    (((⟨["A", "B"], [[1, 0], [0, 1]]⟩ : CorrelationMatrix).matrix.getD 0 []).getD 0 0
      = 1) ∧
    (((⟨["A", "B"], [[1, 0], [0, 1]]⟩ : CorrelationMatrix).matrix.getD 0 []).getD 1 0
      = 0) := by
  refine ⟨claim8_correlation_matrix.1 (some ()) ["A"] (by decide), ?_, ?_⟩
  · exact claim8_correlation_matrix.2.1 (some ()) ["A", "B"] _ 0 (by decide) (by decide)
  · exact claim8_correlation_matrix.2.2 (some ()) ["A", "B"] _ 0 1 (by decide)
      (by decide) (by decide) (by decide)

/-- C10: every matrix `calculate_correlation_matrix` returns is the identity
matrix over the held symbols — all off-diagonal cells are exactly `0.0`
(because `_calculate_symbol_correlation` always takes its exception branch:
it references the unbound name `yf`) — and it is therefore symmetric. -/
theorem claim10_identity_matrix :
    ∀ (pf : Option Unit) (holdings : List String) (M : CorrelationMatrix),
      calculateCorrelationMatrix pf holdings = some M →
      (∀ i j, i < holdings.length → j < holdings.length →
        (M.matrix.getD i []).getD j 0 = if i = j then (1 : ℚ) else 0) ∧
      (∀ i j, i < holdings.length → j < holdings.length →
        (M.matrix.getD i []).getD j 0 = (M.matrix.getD j []).getD i 0) := by
  intro pf holdings M hM
  constructor
  · intro i j hi hj
    exact correlationMatrix_cell pf holdings M i j hM hi hj
  · intro i j hi hj
    rw [correlationMatrix_cell pf holdings M i j hM hi hj,
      correlationMatrix_cell pf holdings M j i hM hj hi]
    by_cases h : i = j
    · simp [h]
    · have h2 : ¬j = i := fun he => h he.symm
      simp [h, h2]

/-- Witness for C10 at a concrete input. -/
theorem claim10_identity_matrix_witness :
    (((⟨["A", "B"], [[1, 0], [0, 1]]⟩ : CorrelationMatrix).matrix.getD 1 []).getD 0 0
      = if (1 : ℕ) = 0 then (1 : ℚ) else 0) := by
  exact (claim10_identity_matrix (some ()) ["A", "B"] _ (by decide)).1 1 0
    (by decide) (by decide)

/-! ## Counterexamples for the corrected claims -/

/-- C2 counterexample: a ledger of two BUY transactions recorded at two
timestamps of the same calendar day (seconds 0 and 60 of day 0) yields ONE
observation and an empty return series, not `n = 2` observations: the
builder keys observations by `transaction_date.date()`, so it emits one
observation per distinct calendar day, the later transaction of a day
overwriting the earlier one's value. -/
theorem claim2_counterexample :
    [buyTx "A" 1 10 0, buyTx "A" 1 10 60].length = 2 ∧
    (dailyObservations [buyTx "A" 1 10 0, buyTx "A" 1 10 60] envLiveTen).length = 1 ∧
    portfolioReturns [buyTx "A" 1 10 0, buyTx "A" 1 10 60] envLiveTen = [] := by
  decide

/-- C3 counterexample: a provider answering HTTP 500 (a non-retriable
failure per the claim) on every attempt, with `max_retries = 3`, consumes
all 3 attempts — not 1 — because the `raise FinnhubError` for a status ≥ 400
is caught by the loop's catch-all `except Exception` arm and retried. -/
theorem claim3_counterexample :
    request ⟨3, true⟩ (fun _ => .httpError) =
      (.failedAfterRetries 3, ⟨3, false⟩) ∧
    attemptsOf (request ⟨3, true⟩ (fun _ => .httpError)).1 = 3 ∧
    (3 : ℕ) ≠ 1 := by
  decide

/-- C4 counterexample: a provider that times out (transport error) on every
attempt exhausts all `max_retries = 3` attempts without success, yet the
`_service_available` flag stays `True`: the final-attempt
`except httpx.RequestError` arm re-raises directly and never reaches
line 90, which is the only place the flag is cleared during a request. -/
theorem claim4_counterexample :
    request ⟨3, true⟩ (fun _ => .netError) =
      (.raisedNetworkError 3, ⟨3, true⟩) ∧
    (request ⟨3, true⟩ (fun _ => .netError)).2.serviceAvailable ≠ false ∧
    attemptsOf (request ⟨3, true⟩ (fun _ => .netError)).1 = 3 := by
  decide

/-- C6 counterexample: ledger = BUY 1 "A" @ 10 on day 0, BUY 1 "A" @ 20 on
day 1, with every live lookup failing and no cached close.  The claimed
fallback to the symbol's last transaction price would value the two
observations at `10` and `2 × 20 = 40`; the code instead omits the unpriced
symbol entirely, valuing both observations at `0`. -/
theorem claim6_counterexample :
    dailyObservations [buyTx "A" 1 10 0, buyTx "A" 1 20 86400] envNoPrices =
      [(0, 0), (1, 0)] ∧
    (dailyObservations [buyTx "A" 1 10 0, buyTx "A" 1 20 86400] envNoPrices).map
      (fun e => e.2) ≠ [10, 40] := by
  decide

/-- C7 counterexample: transactions on day 0 and day 5 (BUY 1 "A" @ 10
each, live price 10), benchmark data holding a single bar (day 0, close
100).  The day-5 lookup finds no bar at or after day 5; the claim says the
previous normalized value `10` is repeated, but the code emits the current
portfolio value `20` as the benchmark value. -/
theorem claim7_counterexample :
    portfolioHistoricalData envLiveTen (some ())
      [buyTx "A" 1 10 0, buyTx "A" 1 10 432000] [(0, 100)] =
      [⟨0, 10, 10⟩, ⟨5, 20, 20⟩] ∧
    ((20 : ℚ) ≠ 10) := by
  constructor
  · norm_num [portfolioHistoricalData, benchGo, benchUpdate, benchPortfolioValue,
      getCurrentPrices, alistSet, alistLookup, alistErase, envLiveTen, buyTx, txDay,
      pyRound, List.find?, List.filterMap_cons, List.sum_cons, List.sum_nil,
      Int.fract]
  · norm_num

/-! ## C3 amended: retry accounting of `_request` -/

/-- If the provider fails transiently on every attempt in `[s, k)` and
succeeds at attempt `k ≤ maxRetries`, the loop over attempts `[s, s+len)`
(with `s + len = maxRetries + 1` and `s ≤ k`) returns after attempt `k`. -/
theorem runAttempts_success (provider : ℕ → AttemptOutcome) (maxRetries : ℕ)
    (k : ℕ) (hk : k ≤ maxRetries) (hsucc : provider k = .success) :
    ∀ (len s : ℕ), s + len = maxRetries + 1 → s ≤ k →
    (∀ a, s ≤ a → a < k → IsTransient (provider a)) →
    runAttempts provider maxRetries (List.range' s len) = .returned k := by
  intro len
  induction len with
  | zero =>
    intro s hlen hsk _
    omega
  | succ n ih =>
    intro s hlen hsk htrans
    rw [List.range'_succ]
    by_cases hse : s = k
    · subst hse
      simp [runAttempts, hsucc]
    · have hslt : s < k := lt_of_le_of_ne hsk hse
      have ht := htrans s le_rfl hslt
      have hlt : s < maxRetries := by omega
      rcases ht with h | h <;>
        simp [runAttempts, h, Nat.not_le.mpr hlt, hlt] <;>
        exact ih (s + 1) (by omega) (by omega)
          (fun a ha1 ha2 => htrans a (by omega) ha2)

/-- If the provider never succeeds on attempts `[s, maxRetries]`, the loop
over attempts `[s, s+len)` (with `s + len = maxRetries + 1`, `1 ≤ s`) ends
with either a `break`/normal exit or the final-attempt network re-raise,
in both cases after exactly `maxRetries` attempts. -/
theorem runAttempts_all_fail (provider : ℕ → AttemptOutcome) (maxRetries : ℕ) :
    ∀ (len s : ℕ), s + len = maxRetries + 1 → 1 ≤ s →
    (∀ a, s ≤ a → a ≤ maxRetries → provider a ≠ .success) →
    runAttempts provider maxRetries (List.range' s len) = .brokeOut maxRetries ∨
    runAttempts provider maxRetries (List.range' s len) = .raisedNet maxRetries := by
  intro len
  induction len with
  | zero =>
    intro s hlen _ _
    left
    rfl
  | succ n ih =>
    intro s hlen hs1 hfail
    rw [List.range'_succ]
    have hsmax : s ≤ maxRetries := by omega
    have hno := hfail s le_rfl hsmax
    by_cases hlast : s = maxRetries
    · subst hlast
      cases hpa : provider s with
      | success => exact absurd hpa hno
      | http429 => left; simp [runAttempts, hpa]
      | httpError => left; simp [runAttempts, hpa]
      | badJson => left; simp [runAttempts, hpa]
      | netError => right; simp [runAttempts, hpa]
    · have hlt : s < maxRetries := lt_of_le_of_ne hsmax hlast
      have hrec := ih (s + 1) (by omega) (by omega)
        (fun a ha1 ha2 => hfail a (by omega) ha2)
      cases hpa : provider s with
      | success => exact absurd hpa hno
      | http429 => simpa [runAttempts, hpa, Nat.not_le.mpr hlt] using hrec
      | httpError => simpa [runAttempts, hpa, hlt] using hrec
      | badJson => simpa [runAttempts, hpa, hlt] using hrec
      | netError => simpa [runAttempts, hpa, hlt] using hrec

/-- C3, amended: through an available client, a call that fails transiently
on its first `k-1` attempts and succeeds on attempt `k ≤ max_retries` makes
exactly `k` network attempts and succeeds; a call whose every attempt fails
— transiently or not — makes exactly `max_retries` attempts and does not
succeed (callers then fall back).  (Non-retriable failures are NOT failed
immediately: the loop's catch-all `except` retries them, see the
counterexample.) -/
theorem claim3_amended (svc : FinnhubService) (provider : ℕ → AttemptOutcome)
    (hav : svc.serviceAvailable = true) :
    (∀ k, 1 ≤ k → k ≤ svc.maxRetries →
      (∀ a, 1 ≤ a → a < k → IsTransient (provider a)) →
      provider k = .success →
      request svc provider = (.ok k, svc)) ∧
    ((∀ a, 1 ≤ a → a ≤ svc.maxRetries → provider a ≠ .success) →
      attemptsOf (request svc provider).1 = svc.maxRetries ∧
      ∀ n, (request svc provider).1 ≠ .ok n) := by
  constructor
  · intro k hk1 hkmax htrans hsucc
    have hrun := runAttempts_success provider svc.maxRetries k hkmax hsucc
      svc.maxRetries 1 (by omega) hk1 htrans
    simp [request, hav, requestAttempts, hrun]
  · intro hfail
    have hrun := runAttempts_all_fail provider svc.maxRetries svc.maxRetries 1
      (by omega) le_rfl (fun a h1 h2 => hfail a h1 h2)
    rcases hrun with h | h <;>
      simp [request, hav, requestAttempts, h, attemptsOf]

/-- Witness for C3 amended, at concrete inputs: a provider that is
rate-limited once then succeeds uses exactly 2 of 3 attempts; a provider
that always answers HTTP 500 consumes all 3 attempts and never succeeds. -/
theorem claim3_amended_witness :
    request ⟨3, true⟩
      (fun a => if a = 1 then AttemptOutcome.http429 else .success) =
      (.ok 2, ⟨3, true⟩) ∧
    attemptsOf (request ⟨3, true⟩ (fun _ => AttemptOutcome.httpError)).1 = 3 := by
  constructor
  · exact (claim3_amended ⟨3, true⟩ _ rfl).1 2 (by omega) (by decide)
      (fun a h1 h2 => by
        have ha : a = 1 := by omega
        subst ha
        simp [IsTransient])
      (by norm_num)
  · exact ((claim3_amended ⟨3, true⟩ (fun _ => .httpError) rfl).2
      (fun a _ _ => by simp)).1

/-! ## C4 amended: the availability flag -/

/-- C4, amended: while the flag is down every call short-circuits with zero
network attempts; the flag is cleared by an exhausted call exactly when the
final attempt's failure reached the `break` path (rate-limit, HTTP error
status, malformed body) — a final-attempt transport error raises without
touching it; a request never sets the flag; only `enable_service` sets it
and `disable_service` clears it explicitly. -/
theorem claim4_amended :
    (∀ (svc : FinnhubService) (provider : ℕ → AttemptOutcome),
      svc.serviceAvailable = false →
      request svc provider = (.circuitOpen, svc) ∧
      attemptsOf (request svc provider).1 = 0) ∧
    (∀ (svc : FinnhubService) (provider : ℕ → AttemptOutcome) (n : ℕ),
      (request svc provider).1 = .failedAfterRetries n →
      (request svc provider).2.serviceAvailable = false) ∧
    (∀ (svc : FinnhubService) (provider : ℕ → AttemptOutcome) (n : ℕ),
      (request svc provider).1 = .raisedNetworkError n →
      (request svc provider).2 = svc) ∧
    (∀ (svc : FinnhubService) (provider : ℕ → AttemptOutcome),
      (request svc provider).2.serviceAvailable = true →
      svc.serviceAvailable = true) ∧
    (∀ svc : FinnhubService,
      (enableService svc).serviceAvailable = true ∧
      (disableService svc).serviceAvailable = false) := by
  refine ⟨?_, ?_, ?_, ?_, ?_⟩
  · intro svc provider hoff
    simp [request, hoff, attemptsOf]
  · intro svc provider n h
    cases hsa : svc.serviceAvailable with
    | false => simp [request, hsa] at h
    | true =>
      cases hr : requestAttempts provider svc.maxRetries <;>
        simp [request, hsa, hr] at h ⊢
  · intro svc provider n h
    cases hsa : svc.serviceAvailable with
    | false => simp [request, hsa] at h ⊢
    | true =>
      cases hr : requestAttempts provider svc.maxRetries <;>
        simp [request, hsa, hr] at h ⊢
  · intro svc provider h
    cases hsa : svc.serviceAvailable with
    | false => simp [request, hsa] at h
    | true => rfl
  · intro svc
    exact ⟨rfl, rfl⟩

/-- Witness for C4 amended, at concrete inputs. -/
theorem claim4_amended_witness :
    request ⟨3, false⟩ (fun _ => AttemptOutcome.success) =
      (.circuitOpen, ⟨3, false⟩) ∧
    (request ⟨3, true⟩ (fun _ => AttemptOutcome.http429)).2.serviceAvailable
      = false ∧
    (request ⟨3, true⟩ (fun _ => AttemptOutcome.netError)).2 = ⟨3, true⟩ ∧
    (⟨3, true⟩ : FinnhubService).serviceAvailable = true ∧
    (enableService ⟨3, false⟩).serviceAvailable = true := by
  refine ⟨(claim4_amended.1 ⟨3, false⟩ _ rfl).1, ?_, ?_, ?_,
    (claim4_amended.2.2.2.2 ⟨3, false⟩).1⟩
  · exact claim4_amended.2.1 ⟨3, true⟩ (fun _ => .http429) 3 (by decide)
  · exact claim4_amended.2.2.1 ⟨3, true⟩ (fun _ => .netError) 3 (by decide)
  · exact claim4_amended.2.2.2.1 ⟨3, true⟩ (fun _ => .success) (by decide)

/-! ## C2 amended: shape of the observation and return series -/

/-- Declarative form of the period-return rule: one return per consecutive
pair of observation values whose first component is positive. -/
def pairwiseReturns (vs : List ℚ) : List ℚ :=
  (vs.zip vs.tail).filterMap
    (fun pc => if pc.1 > 0 then some ((pc.2 - pc.1) / pc.1) else none)

/-- The translated `for i in range(1, len)` loop computes exactly the
declarative pairwise returns. -/
theorem returnsLoop_eq_pairwise : ∀ vs : List ℚ, returnsLoop vs = pairwiseReturns vs
  | [] => rfl
  | [_] => rfl
  | x :: y :: rest => by
    have ih := returnsLoop_eq_pairwise (y :: rest)
    by_cases h : x > 0 <;>
      simp [returnsLoop, pairwiseReturns, List.filterMap_cons, h] <;>
      simpa [pairwiseReturns] using ih

/-- Keys after a dict write: the old keys plus (possibly) the new one. -/
theorem alistSet_keys_mem {α β : Type} [DecidableEq α] :
    ∀ (l : List (α × β)) (k : α) (v : β) (x : α),
    x ∈ (alistSet l k v).map Prod.fst ↔ x ∈ l.map Prod.fst ∨ x = k := by
  intro l k v
  induction l with
  | nil => intro x; simp [alistSet]
  | cons e rest ih =>
    intro x
    by_cases he : e.1 = k
    · rcases e with ⟨a, b⟩
      simp only at he
      subst he
      simp [alistSet]
      tauto
    · rcases e with ⟨a, b⟩
      simp only at he
      simp [alistSet, he, ih x]
      tauto

/-- A dict write preserves key uniqueness. -/
theorem alistSet_keys_nodup {α β : Type} [DecidableEq α] :
    ∀ (l : List (α × β)) (k : α) (v : β),
    (l.map Prod.fst).Nodup → ((alistSet l k v).map Prod.fst).Nodup := by
  intro l k v
  induction l with
  | nil => intro _; simp [alistSet]
  | cons e rest ih =>
    intro h
    rcases e with ⟨a, b⟩
    simp only [List.map_cons, List.nodup_cons] at h
    by_cases he : a = k
    · subst he
      have hset : alistSet ((a, b) :: rest) a v = (a, v) :: rest := by
        simp [alistSet]
      rw [hset, List.map_cons, List.nodup_cons]
      exact h
    · simp only [alistSet, he, if_false, List.map_cons, List.nodup_cons]
      refine ⟨?_, ih h.2⟩
      rw [alistSet_keys_mem]
      rintro (hmem | rfl)
      · exact h.1 hmem
      · exact he rfl

/-- Invariant of the replay fold: the day-value dict keeps unique keys, and
its keys are the starting keys plus the days of the processed ledger. -/
theorem dayValues_fold_keys (env : PriceEnv) :
    ∀ (txs : List Tx) (st : List (String × Pos) × List (ℕ × ℚ)),
    (st.2.map Prod.fst).Nodup →
    (((txs.foldl (replayStep env) st).2.map Prod.fst).Nodup ∧
      ∀ d, d ∈ (txs.foldl (replayStep env) st).2.map Prod.fst ↔
        d ∈ st.2.map Prod.fst ∨ d ∈ txs.map txDay) := by
  intro txs
  induction txs with
  | nil =>
    intro st h
    exact ⟨h, by simp⟩
  | cons tx rest ih =>
    intro st h
    have hstep : ((replayStep env st tx).2.map Prod.fst).Nodup :=
      alistSet_keys_nodup _ _ _ h
    obtain ⟨hnd, hmem⟩ := ih (replayStep env st tx) hstep
    refine ⟨by simpa using hnd, ?_⟩
    intro d
    rw [List.foldl_cons, hmem d]
    simp only [replayStep, alistSet_keys_mem, List.map_cons, List.mem_cons]
    tauto

/-- The observation days are the (unique-keyed) dict keys, sorted. -/
theorem dailyObservations_fst (txs : List Tx) (env : PriceEnv) :
    (dailyObservations txs env).map Prod.fst =
      List.insertionSort (· ≤ ·) ((dayValues txs env).map Prod.fst) := by
  simp [dailyObservations, List.map_map, Function.comp_def]

/-- C2, amended: the builder emits one observation per distinct calendar day
of the ledger — the observation days are strictly increasing and are exactly
the days on which a transaction occurred — and, for a ledger of at least two
transactions, it emits a period return `(curr - prev) / prev` between each
pair of consecutive observations, skipping exactly those pairs whose
previous value is ≤ 0. -/
theorem claim2_amended (txs : List Tx) (env : PriceEnv) :
    List.Sorted (· < ·) ((dailyObservations txs env).map Prod.fst) ∧
    (∀ d, d ∈ (dailyObservations txs env).map Prod.fst ↔ d ∈ txs.map txDay) ∧
    (2 ≤ txs.length →
      portfolioReturns txs env =
        pairwiseReturns ((dailyObservations txs env).map Prod.snd)) := by
  have hkeys := dayValues_fold_keys env txs ([], []) (by simp)
  have hnodup : ((dayValues txs env).map Prod.fst).Nodup := hkeys.1
  have hsorted' := List.sorted_insertionSort (· ≤ ·)
    ((dayValues txs env).map Prod.fst)
  have hperm := List.perm_insertionSort (· ≤ ·)
    ((dayValues txs env).map Prod.fst)
  have hnodup' : (List.insertionSort (· ≤ ·)
      ((dayValues txs env).map Prod.fst)).Nodup :=
    hperm.nodup_iff.mpr hnodup
  refine ⟨?_, ?_, ?_⟩
  · rw [dailyObservations_fst]
    exact (hsorted'.and hnodup').imp (fun hab => lt_of_le_of_ne hab.1 hab.2)
  · intro d
    rw [dailyObservations_fst, List.mem_insertionSort]
    have := (hkeys.2 d)
    simpa using this
  · intro h2
    rw [portfolioReturns, if_neg (by omega), returnsLoop_eq_pairwise]

/-- Witness for C2 amended at a concrete two-transaction ledger spanning two
days. -/
theorem claim2_amended_witness :
    2 ≤ [buyTx "A" 1 10 0, buyTx "A" 1 10 86400].length ∧
    portfolioReturns [buyTx "A" 1 10 0, buyTx "A" 1 10 86400] envLiveTen =
      pairwiseReturns
        ((dailyObservations [buyTx "A" 1 10 0, buyTx "A" 1 10 86400]
          envLiveTen).map Prod.snd) :=
  ⟨by decide,
    (claim2_amended [buyTx "A" 1 10 0, buyTx "A" 1 10 86400] envLiveTen).2.2
      (by decide)⟩

/-! ## C6 amended: price fallback during the replay -/

/-- The dict entry of a symbol is its live-or-cached price, tagged with the
symbol. -/
theorem priceEntry_eq (env : PriceEnv) (s : String) :
    priceEntry env s = ((env.live s).or (env.dbClose s)).map (fun p => (s, p)) := by
  cases hl : env.live s <;> cases hd : env.dbClose s <;>
    simp [priceEntry, hl, hd, Option.or]

/-- A symbol with neither a live nor a cached price never appears in the
price dict. -/
theorem lookup_priceEntries_none (env : PriceEnv) (s : String)
    (h : (env.live s).or (env.dbClose s) = none) :
    ∀ l : List String, alistLookup (l.filterMap (priceEntry env)) s = none := by
  intro l
  induction l with
  | nil => rfl
  | cons a rest ih =>
    rw [List.filterMap_cons]
    cases hpa : priceEntry env a with
    | none => exact ih
    | some e =>
      rw [priceEntry_eq] at hpa
      rcases Option.map_eq_some'.mp hpa with ⟨p, hX, he⟩
      by_cases has : a = s
      · subst has
        rw [h] at hX
        exact absurd hX (by simp)
      · rw [← he]
        simp only [alistLookup, has, if_false]
        exact ih

/-- Looking up a requested symbol in the dict built by
`_get_current_prices` yields its live price if any, else its cached DB
close if any, else nothing. -/
theorem lookup_priceEntries (env : PriceEnv) :
    ∀ (l : List String) (s : String), s ∈ l →
    alistLookup (l.filterMap (priceEntry env)) s =
      (env.live s).or (env.dbClose s) := by
  intro l
  induction l with
  | nil => simp
  | cons a rest ih =>
    intro s hmem
    rw [List.filterMap_cons]
    by_cases has : a = s
    · subst has
      cases hor : (env.live a).or (env.dbClose a) with
      | some p =>
        have hpe : priceEntry env a = some (a, p) := by
          rw [priceEntry_eq, hor]
          rfl
        rw [hpe]
        simp [alistLookup, hor]
      | none =>
        have hpe : priceEntry env a = none := by
          rw [priceEntry_eq, hor]
          rfl
        rw [hpe]
        exact lookup_priceEntries_none env a hor rest
    · have hmem' : s ∈ rest := by
        rcases List.mem_cons.mp hmem with h | h
        · exact absurd h.symm has
        · exact h
      cases hpa : priceEntry env a with
      | none => exact ih s hmem'
      | some e =>
        rw [priceEntry_eq] at hpa
        rcases Option.map_eq_some'.mp hpa with ⟨p, hX, he⟩
        rw [← he]
        simp only [alistLookup, has, if_false]
        exact ih s hmem'

/-- C6, amended: a live-price failure for a symbol falls back to that
symbol's most recent cached DB close; a symbol with neither price is simply
omitted from the dict (contributing nothing — in particular a lone such
position is valued at `0`); and when the batched lookup itself raises, the
whole observation's value falls back to the sum of the open positions' cost
bases.  The replay is a total function — it never aborts. -/
theorem claim6_amended :
    (∀ (env : PriceEnv) (symbols : List String) (s : String),
      env.dbRaises = false → s ∈ symbols →
      ∃ ps, getCurrentPrices env symbols = .ok ps ∧
        alistLookup ps s = (env.live s).or (env.dbClose s)) ∧
    (∀ (env : PriceEnv) (tr : List (String × Pos)), env.dbRaises = true →
      tr ≠ [] →
      portfolioValue env tr = (tr.map (fun e => e.2.totalCost)).sum) ∧
    (∀ (env : PriceEnv) (s : String) (pos : Pos), env.dbRaises = false →
      env.live s = none → env.dbClose s = none →
      portfolioValue env [(s, pos)] = 0) := by
  refine ⟨?_, ?_, ?_⟩
  · intro env symbols s hdb hmem
    refine ⟨symbols.filterMap (priceEntry env), ?_, ?_⟩
    · simp [getCurrentPrices, hdb]
    · exact lookup_priceEntries env symbols s hmem
  · intro env tr hdb hne
    cases tr with
    | nil => exact absurd rfl hne
    | cons e rest => simp [portfolioValue, getCurrentPrices, hdb]
  · intro env s pos hdb hl hd
    simp [portfolioValue, getCurrentPrices, hdb, priceEntry, hl, hd, alistLookup]

/-- Witness for C6 amended at concrete inputs. -/
theorem claim6_amended_witness :
    (∃ ps, getCurrentPrices envNoPrices ["A"] = .ok ps ∧
      alistLookup ps "A" =
        (envNoPrices.live "A").or (envNoPrices.dbClose "A")) ∧
    portfolioValue envDbError [("A", ⟨1, 10, 10⟩)] =
      ([(("A" : String), (⟨1, 10, 10⟩ : Pos))].map
        (fun e => e.2.totalCost)).sum ∧
    portfolioValue envNoPrices [("A", ⟨1, 10, 10⟩)] = 0 := by
  refine ⟨claim6_amended.1 envNoPrices ["A"] "A" rfl (by simp), ?_, ?_⟩
  · exact claim6_amended.2.1 envDbError [("A", ⟨1, 10, 10⟩)] rfl (by simp)
  · exact claim6_amended.2.2 envNoPrices "A" ⟨1, 10, 10⟩ rfl rfl rfl

/-! ## C7 amended: shape of the benchmark comparison series -/

/-- The comparator emits exactly one entry per transaction, whatever the
state. -/
theorem benchGo_length (env : PriceEnv) (bdata : List (ℕ × ℚ))
    (startClose : ℚ) :
    ∀ (txs : List Tx) (tr : List (String × BPos)) (initial : Option ℚ)
      (first : Bool),
    (benchGo env bdata startClose txs tr initial first).length = txs.length := by
  intro txs
  induction txs with
  | nil => intro tr initial first; rfl
  | cons t rest ih =>
    intro tr initial first
    simp only [benchGo, List.length_cons]
    rw [ih]

/-- An observation whose benchmark lookup finds no bar emits its own
portfolio value as the benchmark value (both rounded the same way),
whatever the carried state. -/
theorem benchGo_fallback (env : PriceEnv) (bdata : List (ℕ × ℚ))
    (startClose : ℚ) :
    ∀ (txs : List Tx) (tr : List (String × BPos)) (initial : Option ℚ)
      (first : Bool) (i : ℕ) (tx : Tx),
    txs[i]? = some tx →
    bdata.find? (fun b => decide (txDay tx ≤ b.1)) = none →
    ∃ pv, (benchGo env bdata startClose txs tr initial first)[i]? =
      some ⟨txDay tx, pv, pv⟩ := by
  intro txs
  induction txs with
  | nil =>
    intro tr initial first i tx hget
    simp at hget
  | cons t rest ih =>
    intro tr initial first i tx hget hfound
    cases i with
    | zero =>
      simp only [List.getElem?_cons_zero, Option.some.injEq] at hget
      subst hget
      refine ⟨pyRound 2 (benchPortfolioValue env (benchUpdate tr t) t.price), ?_⟩
      simp [benchGo, hfound]
    | succ n =>
      simp only [List.getElem?_cons_succ] at hget
      simp only [benchGo, List.getElem?_cons_succ]
      exact ih _ _ false n tx hget hfound

/-- Once `initial_portfolio_value` is assigned (and the first iteration is
over), every observation whose lookup finds a bar `b` emits
`round2(b.close / startClose × initial)`, whatever else happens. -/
theorem benchGo_found_initial (env : PriceEnv) (bdata : List (ℕ × ℚ))
    (startClose : ℚ) (iv : ℚ) :
    ∀ (txs : List Tx) (tr : List (String × BPos)) (i : ℕ) (tx : Tx)
      (b : ℕ × ℚ),
    txs[i]? = some tx →
    bdata.find? (fun b2 => decide (txDay tx ≤ b2.1)) = some b →
    ∃ pv, (benchGo env bdata startClose txs tr (some iv) false)[i]? =
      some ⟨txDay tx, pyRound 2 pv, pyRound 2 ((b.2 / startClose) * iv)⟩ := by
  intro txs
  induction txs with
  | nil =>
    intro tr i tx b hget
    simp at hget
  | cons t rest ih =>
    intro tr i tx b hget hfound
    cases i with
    | zero =>
      simp only [List.getElem?_cons_zero, Option.some.injEq] at hget
      subst hget
      refine ⟨benchPortfolioValue env (benchUpdate tr t) t.price, ?_⟩
      simp [benchGo, hfound]
    | succ n =>
      simp only [List.getElem?_cons_succ] at hget
      cases hfirst : bdata.find? (fun b2 => decide (txDay t ≤ b2.1)) with
      | none =>
        simp only [benchGo, hfirst, List.getElem?_cons_succ]
        exact ih _ n tx b hget hfound
      | some b1 =>
        simp only [benchGo, hfirst, List.getElem?_cons_succ]
        exact ih _ n tx b hget hfound

/-- Unfolding the first iteration when its benchmark lookup succeeds:
`initial_portfolio_value` is fixed to the first observation's portfolio
value and the loop continues with it. -/
theorem portfolioHistoricalData_cons_found (env : PriceEnv) (tx0 : Tx)
    (rest : List Tx) (b : ℕ × ℚ) (bs : List (ℕ × ℚ)) (b0 : ℕ × ℚ)
    (hfound : (b :: bs).find? (fun b2 => decide (txDay tx0 ≤ b2.1)) = some b0) :
    portfolioHistoricalData env (some ()) (tx0 :: rest) (b :: bs) =
      ⟨txDay tx0,
        pyRound 2 (benchPortfolioValue env (benchUpdate [] tx0) tx0.price),
        pyRound 2 ((b0.2 / b.2) *
          benchPortfolioValue env (benchUpdate [] tx0) tx0.price)⟩ ::
      benchGo env (b :: bs) b.2 rest (benchUpdate [] tx0)
        (some (benchPortfolioValue env (benchUpdate [] tx0) tx0.price)) false := by
  simp [portfolioHistoricalData, benchGo, hfound]

/-- C7, amended: one observation is emitted per transaction (the series is
empty only without transactions or benchmark data and never aborts); an
observation whose lookup finds no benchmark bar at or after its date emits
its OWN portfolio value as the benchmark value (not the previous normalized
value); when the first observation's lookup finds a bar, the first emitted
benchmark value is `round2(close0 / closeOfFirstWindowBar × pv0)` and every
later observation whose lookup finds a bar `b` emits
`round2(b.close / closeOfFirstWindowBar × pv0)`, where `pv0` is the first
observation's (unrounded) portfolio value. -/
theorem claim7_amended (env : PriceEnv) (txs : List Tx)
    (bdata : List (ℕ × ℚ)) :
    ((txs = [] ∨ bdata = []) →
      portfolioHistoricalData env (some ()) txs bdata = []) ∧
    (bdata ≠ [] →
      (portfolioHistoricalData env (some ()) txs bdata).length =
        if txs = [] then 0 else txs.length) ∧
    (bdata ≠ [] → txs ≠ [] → ∀ (i : ℕ) (tx : Tx), txs[i]? = some tx →
      bdata.find? (fun b => decide (txDay tx ≤ b.1)) = none →
      ∃ pv, (portfolioHistoricalData env (some ()) txs bdata)[i]? =
        some ⟨txDay tx, pv, pv⟩) ∧
    (∀ tx0 rest, txs = tx0 :: rest → bdata ≠ [] →
      ∀ b0, bdata.find? (fun b2 => decide (txDay tx0 ≤ b2.1)) = some b0 →
      (portfolioHistoricalData env (some ()) txs bdata)[0]? =
        some ⟨txDay tx0,
          pyRound 2 (benchPortfolioValue env (benchUpdate [] tx0) tx0.price),
          pyRound 2 ((b0.2 / (bdata.headD (0, 1)).2) *
            benchPortfolioValue env (benchUpdate [] tx0) tx0.price)⟩ ∧
      (∀ (i : ℕ) (tx : Tx) (b : ℕ × ℚ), rest[i]? = some tx →
        bdata.find? (fun b2 => decide (txDay tx ≤ b2.1)) = some b →
        ∃ pv, (portfolioHistoricalData env (some ()) txs bdata)[i + 1]? =
          some ⟨txDay tx, pyRound 2 pv,
            pyRound 2 ((b.2 / (bdata.headD (0, 1)).2) *
              benchPortfolioValue env (benchUpdate [] tx0) tx0.price)⟩)) := by
  refine ⟨?_, ?_, ?_, ?_⟩
  · rintro (rfl | rfl)
    · rfl
    · cases txs with
      | nil => rfl
      | cons t rest => rfl
  · intro hbne
    cases txs with
    | nil => simp [portfolioHistoricalData]
    | cons t rest =>
      cases bdata with
      | nil => exact absurd rfl hbne
      | cons b bs =>
        simp [portfolioHistoricalData, benchGo_length]
  · intro hbne htne i tx hget hfound
    cases txs with
    | nil => exact absurd rfl htne
    | cons t rest =>
      cases bdata with
      | nil => exact absurd rfl hbne
      | cons b bs =>
        simp only [portfolioHistoricalData, List.isEmpty_cons]
        exact benchGo_fallback env (b :: bs) b.2 (t :: rest) [] none true i tx
          hget hfound
  · rintro tx0 rest rfl hbne b0 hfound0
    cases bdata with
    | nil => exact absurd rfl hbne
    | cons b bs =>
      rw [portfolioHistoricalData_cons_found env tx0 rest b bs b0 hfound0]
      constructor
      · simp
      · intro i tx bb hget hfound
        simp only [List.getElem?_cons_succ]
        exact benchGo_found_initial env (b :: bs) b.2
          (benchPortfolioValue env (benchUpdate [] tx0) tx0.price)
          rest (benchUpdate [] tx0) i tx bb hget hfound

/-- Witness for C7 amended at the concrete scenario of the counterexample
(benchmark bars on days 0 and 7, transactions on days 0 and 5). -/
theorem claim7_amended_witness :
    ((portfolioHistoricalData envLiveTen (some ())
      [buyTx "A" 1 10 0, buyTx "A" 1 10 432000] [(0, 50), (7, 200)]).length =
      if [buyTx "A" 1 10 0, buyTx "A" 1 10 432000] = [] then 0 else 2) ∧
    (∃ pv, (portfolioHistoricalData envLiveTen (some ())
      [buyTx "A" 1 10 0, buyTx "A" 1 10 432000] [(0, 50), (7, 200)])[1]? =
      some ⟨5, pyRound 2 pv,
        pyRound 2 (((200 : ℚ) / 50) *
          benchPortfolioValue envLiveTen
            (benchUpdate [] (buyTx "A" 1 10 0)) (buyTx "A" 1 10 0).price)⟩) := by
  constructor
  · exact (claim7_amended envLiveTen _ _).2.1 (by simp)
  · exact ((claim7_amended envLiveTen _ _).2.2.2 (buyTx "A" 1 10 0)
      [buyTx "A" 1 10 432000] rfl (by simp) (0, 50) (by norm_num [List.find?, txDay, buyTx])).2
      0 (buyTx "A" 1 10 432000) (7, 200) rfl
      (by norm_num [List.find?, txDay, buyTx])
